import Mathlib

/-!
Verification of the sailor vector-map renderer's tessellation, object,
collider, style-buffer and paint-gating code.

Floating-point (`f32`) values are embedded as real numbers; `f32` has no
exact Lean counterpart here, so float arithmetic is modelled exactly over
`ℝ` while the integer conversions (`round`, `as i16`) follow Rust's
semantics (`f32::round` rounds half away from zero; float-to-integer `as`
casts saturate at the target type's bounds).  NaN-ness of a coordinate,
which `ℝ` cannot represent, is carried as an explicit boolean flag where a
claim needs it.
-/

namespace Sailor

/-- Tile address `math::TileId` (zoom, x, y); opaque for the claims here. -/
structure TileId where
  z : ℕ
  x : ℕ
  y : ℕ
deriving DecidableEq

/-- Euclidean length of a 2-vector, as computed by lyon's `Vector::length`. -/
noncomputable def length (v : ℝ × ℝ) : ℝ := Real.sqrt (v.1 ^ 2 + v.2 ^ 2)

/-- Componentwise division by the length, lyon's `Vector::normalize`. -/
noncomputable def normalize (v : ℝ × ℝ) : ℝ × ℝ := (v.1 / length v, v.2 / length v)

/-- Scalar multiple of a 2-vector (lyon's `Vector * f32`). -/
noncomputable def smul (c : ℝ) (v : ℝ × ℝ) : ℝ × ℝ := (c * v.1, c * v.2)

/-- Rust `f32::round`: round half away from zero.  For nonnegative inputs
this agrees with Mathlib's `round` (half up); negative inputs are rounded
through negation. -/
noncomputable def rustRound (x : ℝ) : ℤ := if 0 ≤ x then round x else -round (-x)

/-- Saturate an integer into the `i16` range, as Rust's float-to-`i16`
`as` cast does after discarding the fractional part. -/
def i16Sat (n : ℤ) : ℤ := max (-32768) (min 32767 n)

/-- The `normal.x.round() as i16` conversion: round to the nearest integer
(half away from zero) and saturate into `i16`. -/
noncomputable def i16SatRound (x : ℝ) : ℤ := i16Sat (rustRound x)

/-- Truncation toward zero, the integral part Rust's float-to-int `as`
cast keeps. -/
noncomputable def truncToInt (x : ℝ) : ℤ := if 0 ≤ x then ⌊x⌋ else ⌈x⌉

/-- The `vertex.position.x as i16` conversion: truncate toward zero and
saturate into `i16`. -/
noncomputable def f32AsI16 (x : ℝ) : ℤ := i16Sat (truncToInt x)

/-- The `VertexType` discriminants from `drawing/vertex.rs`
(`Polygon = 0`, `Line = 1`). -/
inductive VertexType where
  | polygon
  | line
deriving DecidableEq

/-- The numeric value of `vertex_type as u16`. -/
def VertexType.toTag : VertexType → ℕ
  | .polygon => 0
  | .line => 1

/-- The output `Vertex { position: [i16; 2], normal: [i16; 2], feature_id: u32 }`.
Integer components are `ℤ` values kept in range by the saturating casts;
`feature_id` is a `ℕ` below `2^32`. -/
structure Vertex where
  position : ℤ × ℤ
  normal : ℤ × ℤ
  feature_id : ℕ
deriving DecidableEq

/-- The mutable constructor state `LayerVertexCtor`. -/
structure LayerVertexCtor where
  tile_id : TileId
  feature_id : ℕ
  extent : ℝ
  vertex_type : VertexType

/-- Input to the fill path: lyon's `FillVertex` (position and normal). -/
structure FillVertexIn where
  position : ℝ × ℝ
  normal : ℝ × ℝ

/-- Input to the stroke path: lyon's `StrokeVertex` (the fields the
constructor reads: position and normal). -/
structure StrokeVertexIn where
  position : ℝ × ℝ
  normal : ℝ × ℝ

/-- Clamp a normal to a maximum length: the
`if normal.length() > limit { normal.normalize() * limit } else { normal }`
expression shared by both `new_vertex` impls (limit 3.0 for fill, 8.0 for
stroke). -/
noncomputable def clampNormal (limit : ℝ) (n : ℝ × ℝ) : ℝ × ℝ :=
  if length n > limit then smul limit (normalize n) else n

/-- `VertexConstructor<FillVertex, Vertex>::new_vertex` from
`drawing/vertex.rs` (the body after the NaN assertions): clamp the normal
to length 3.0, scale by the extent, quantize, and pack
`(meta as u32) << 16 | feature_id`. -/
noncomputable def fillNewVertex (c : LayerVertexCtor) (v : FillVertexIn) : Vertex :=
  let normal := smul c.extent (clampNormal 3 v.normal)
  { position := (f32AsI16 v.position.1, f32AsI16 v.position.2)
    normal := (i16SatRound normal.1, i16SatRound normal.2)
    feature_id := (c.vertex_type.toTag <<< 16) ||| c.feature_id }

/-- `VertexConstructor<StrokeVertex, Vertex>::new_vertex` from
`drawing/vertex.rs` (the body after the NaN assertions): clamp the normal
to length 8.0, scale by the extent, quantize, and emit `feature_id`
unchanged (no vertex-type tag is shifted in on this path). -/
noncomputable def strokeNewVertex (c : LayerVertexCtor) (v : StrokeVertexIn) : Vertex :=
  let normal := smul c.extent (clampNormal 8 v.normal)
  { position := (f32AsI16 v.position.1, f32AsI16 v.position.2)
    normal := (i16SatRound normal.1, i16SatRound normal.2)
    feature_id := c.feature_id }

/-- Modelled from the spec: `Selector` lives in the css module, which is
not under src/; it is the resolved paint properties of a feature and its
internals are irrelevant to the claims here, so it is an abstract token. -/
structure Selector where
  ident : ℕ
deriving DecidableEq

/-- The `ObjectType` discriminants from `vector_tile/object.rs`. -/
inductive ObjectType where
  | polygon
  | line
  | point
deriving DecidableEq

/-- The decoded feature `Object` from `vector_tile/object.rs`.  The
`HashMap<String, String>` of tags is modelled as an association list;
`lyon::math::Point` as `ℝ × ℝ`. -/
structure Object where
  selector : Selector
  points : List (ℝ × ℝ)
  tags : List (String × String)
  object_type : ObjectType

/-- `Object::new` from `vector_tile/object.rs`: note that the source body
stores `tags: HashMap::new()` — the `tags` argument is discarded and an
empty map is stored. -/
def Object.new (selector : Selector) (points : List (ℝ × ℝ))
    (tags : List (String × String)) (object_type : ObjectType) : Object :=
  { selector := selector
    points := points
    tags := []
    object_type := object_type }

/-- Input to the checked fill path: lyon's `FillVertex` together with the
NaN-ness of each position coordinate, which `ℝ` cannot carry itself. -/
structure CheckedFillInput where
  posXNaN : Bool
  posYNaN : Bool
  vertex : FillVertexIn

/-- The fill `new_vertex` including its two leading
`assert!(!vertex.position.{x,y}.is_nan())` statements: an assertion
failure is a Rust panic, modelled as `Except.error`. -/
noncomputable def fillNewVertexChecked (c : LayerVertexCtor) (v : CheckedFillInput) :
    Except Unit Vertex :=
  if v.posXNaN then Except.error ()
  else if v.posYNaN then Except.error ()
  else Except.ok (fillNewVertex c v.vertex)

/-- Modelled from the spec: the tessellation driver that feeds every
produced vertex through `new_vertex` lives in `vector_tile/transform.rs`,
which is not under src/.  A panic raised by an assertion inside
`new_vertex` propagates: the whole traversal aborts with the panic, which
is what sequencing in `Except` expresses. -/
noncomputable def tessellateFill (c : LayerVertexCtor) :
    List CheckedFillInput → Except Unit (List Vertex)
  | [] => Except.ok []
  | v :: rest =>
    match fillNewVertexChecked c v with
    | Except.error e => Except.error e
    | Except.ok w =>
      match tessellateFill c rest with
      | Except.error e => Except.error e
      | Except.ok ws => Except.ok (w :: ws)

/-- One per-feature paint record of the style buffer; the spec gives it a
fixed stride of 12 four-byte words, so it is 12 numbers. -/
structure StyleRecord where
  words : Fin 12 → ℚ

/-- Modelled from the spec: `FeatureCollection::assemble_style_buffer`
(drawing/feature_collection.rs, not under src/) iterates the visible
features' resolved selectors in stable z-order, packs fixed-stride
records, and truncates if the feature count would exceed `max_features`. -/
def assemble_style_buffer (features : List StyleRecord) (max_features : ℕ) :
    List StyleRecord :=
  features.take max_features

/-- The byte length of the canvas-size uniform in
`Painter::create_uniform_buffers`: `4 * 4`. -/
def canvas_size_len : ℕ := 4 * 4

/-- The byte length of the layer-data uniform in
`Painter::create_uniform_buffers`: `len.max(1) * 12 * 4` where `len` is
the assembled style buffer's record count (an all-zero 48-byte record is
written when the buffer is empty). -/
def layer_data_len (len : ℕ) : ℕ := max len 1 * 12 * 4

/-- The per-source byte counts produced by
`Painter::create_uniform_buffers`, in copy order. -/
def create_uniform_buffers_lens (style_len : ℕ) : List ℕ :=
  [canvas_size_len, layer_data_len style_len]

/-- `Painter::copy_uniform_buffers` copies each source buffer after the
previous one, so the region it writes is the sum of the lengths. -/
def copy_uniform_buffers_total (lens : List ℕ) : ℕ := lens.sum

/-- `Painter::uniform_buffer_size`: `4 * 4 + 12 * 4 * max_features`. -/
def uniform_buffer_size (max_features : ℕ) : ℕ := 4 * 4 + 12 * 4 * max_features

/-- The externally visible rendering effects of one `Painter::paint`
call, in program order. -/
inductive PaintEffect where
  | beginRenderPass
  | tileDraw (i : ℕ)
  | queueSubmit
deriving DecidableEq

/-- The effect trace of `Painter::paint`: the render pass, the per-tile
draws and the queue submission all sit inside
`if !features.is_empty() && num_tiles > 0 { if let Ok(frame) = ... }`;
outside that gate the encoder is dropped unsubmitted and nothing is
drawn.  `frameOk` is whether `swap_chain.get_current_frame()` succeeded. -/
def paintEffects (features : List StyleRecord) (numTiles : ℕ) (frameOk : Bool) :
    List PaintEffect :=
  if features.isEmpty = false ∧ 0 < numTiles then
    if frameOk then
      PaintEffect.beginRenderPass ::
        ((List.range numTiles).map PaintEffect.tileDraw ++ [PaintEffect.queueSubmit])
    else []
  else []

/-- One object as the per-tile spatial index sees it: its z-order (draw
order) and its point-containment test.  The containment test abstracts
the exact winding/corridor geometry, which the claims do not depend on. -/
structure PerTileObject where
  zOrder : ℤ
  hit : ℝ × ℝ → Bool

instance : Inhabited PerTileObject := ⟨⟨0, fun _ => false⟩⟩

/-- Descending draw order on indices into an object list, keyed by the
objects' z-order (larger z-order, i.e. topmost, first). -/
def zDescIdx (objs : List PerTileObject) (i j : ℕ) : Prop :=
  (objs.getD j default).zOrder ≤ (objs.getD i default).zOrder

instance zDescIdx.instDecidableRel (objs : List PerTileObject) :
    DecidableRel (zDescIdx objs) := fun i j =>
  inferInstanceAs (Decidable ((objs.getD j default).zOrder ≤ (objs.getD i default).zOrder))

instance zDescIdx.instIsTotal (objs : List PerTileObject) :
    IsTotal ℕ (zDescIdx objs) :=
  ⟨fun i j => (le_total (objs.getD j default).zOrder (objs.getD i default).zOrder)⟩

instance zDescIdx.instIsTrans (objs : List PerTileObject) :
    IsTrans ℕ (zDescIdx objs) :=
  ⟨fun _ _ _ h h' => le_trans h' h⟩

/-- Modelled from the spec: the per-tile spatial index's
`get_hovered_objects(tile_local_point)` (the `tile.collider` field's type
is not under src/) returns the indices of the objects containing the
point, "in front-to-back (top) draw order so the first result is the
topmost hit". -/
def tileColliderHits (objs : List PerTileObject) (p : ℝ × ℝ) : List ℕ :=
  List.insertionSort (zDescIdx objs)
    ((List.range objs.length).filter fun i => (objs.getD i default).hit p)

/-- The cached tile as the collider code reads it: its extent and its
objects. -/
structure Tile where
  extent : ℕ
  objects : List PerTileObject

/-- The in-bounds test of `Collider::get_hovered_objects`
(interaction/collider.rs lines 28-29):
`tile_point.x >= 0.0 && tile_point.x <= tile.extent && tile_point.y >= 0.0 && tile_point.y <= tile.extent`. -/
def inExtent (p : ℝ × ℝ) (extent : ℕ) : Prop :=
  0 ≤ p.1 ∧ p.1 ≤ (extent : ℝ) ∧ 0 ≤ p.2 ∧ p.2 ≤ (extent : ℝ)

noncomputable instance inExtent.instDecidable (p : ℝ × ℝ) (extent : ℕ) :
    Decidable (inExtent p extent) :=
  inferInstanceAs
    (Decidable (0 ≤ p.1 ∧ p.1 ≤ (extent : ℝ) ∧ 0 ≤ p.2 ∧ p.2 ≤ (extent : ℝ)))

/-- `Collider::get_hovered_objects` from `interaction/collider.rs`,
with the parts that live outside src/ abstracted as parameters:
`cache` is `TileCache::try_get_tile`; `tileField` is
`screen.get_tile_boundaries_for_zoom_level(zoom, 1).iter()`; and
`tilePoint tid extent` is the query point pushed through the inverse
`tile_to_global_space` matrix and scaled by the tile's extent (lines
16-26, all calls into the missing `Screen`).  The loop skips uncached
tiles, and at the first cached tile whose tile-local point is in bounds
it pushes that tile's hit objects and returns. -/
noncomputable def getHoveredObjects (cache : TileId → Option Tile)
    (tilePoint : TileId → ℕ → ℝ × ℝ) : List TileId → List PerTileObject
  | [] => []
  | tid :: rest =>
    match cache tid with
    | none => getHoveredObjects cache tilePoint rest
    | some tile =>
      if inExtent (tilePoint tid tile.extent) tile.extent then
        (tileColliderHits tile.objects (tilePoint tid tile.extent)).map
          (fun i => tile.objects.getD i default)
      else getHoveredObjects cache tilePoint rest

/-- The first tile of the field that is cached and whose tile-local query
point is in bounds — the unique tile `getHoveredObjects` can report
objects from. -/
noncomputable def firstEligible (cache : TileId → Option Tile)
    (tilePoint : TileId → ℕ → ℝ × ℝ) : List TileId → Option (TileId × Tile)
  | [] => none
  | tid :: rest =>
    match cache tid with
    | none => firstEligible cache tilePoint rest
    | some tile =>
      if inExtent (tilePoint tid tile.extent) tile.extent then some (tid, tile)
      else firstEligible cache tilePoint rest

/-- The objects the first eligible tile yields (none when no tile is
eligible). -/
noncomputable def hitsOfEligible (tilePoint : TileId → ℕ → ℝ × ℝ) :
    Option (TileId × Tile) → List PerTileObject
  | none => []
  | some (tid, tile) =>
    (tileColliderHits tile.objects (tilePoint tid tile.extent)).map
      (fun i => tile.objects.getD i default)

/-! ### Helper lemmas -/

theorem length_nonneg (v : ℝ × ℝ) : 0 ≤ length v := Real.sqrt_nonneg _

theorem length_pair (x y r : ℝ) (hr : 0 ≤ r) (h : x ^ 2 + y ^ 2 = r ^ 2) :
    length (x, y) = r := by
  show Real.sqrt (x ^ 2 + y ^ 2) = r
  rw [h]
  exact Real.sqrt_sq hr

theorem length_smul (c : ℝ) (v : ℝ × ℝ) (hc : 0 ≤ c) :
    length (smul c v) = c * length v := by
  show Real.sqrt ((c * v.1) ^ 2 + (c * v.2) ^ 2) = c * Real.sqrt (v.1 ^ 2 + v.2 ^ 2)
  rw [show (c * v.1) ^ 2 + (c * v.2) ^ 2 = c ^ 2 * (v.1 ^ 2 + v.2 ^ 2) by ring]
  rw [Real.sqrt_mul (by positivity), Real.sqrt_sq hc]

theorem normalize_eq_smul (v : ℝ × ℝ) : normalize v = smul (1 / length v) v := by
  simp only [normalize, smul, Prod.mk.injEq]
  exact ⟨by ring, by ring⟩

theorem length_normalize (v : ℝ × ℝ) (h : length v ≠ 0) : length (normalize v) = 1 := by
  rw [normalize_eq_smul, length_smul _ _ (one_div_nonneg.mpr (length_nonneg v))]
  exact one_div_mul_cancel h

theorem rustRound_intCast (n : ℤ) : rustRound ((n : ℤ) : ℝ) = n := by
  unfold rustRound
  split_ifs with h
  · exact round_intCast n
  · rw [show -((n : ℤ) : ℝ) = (((-n : ℤ)) : ℝ) by push_cast; ring, round_intCast]
    exact neg_neg n

theorem i16Sat_bounds (n : ℤ) : -32768 ≤ i16Sat n ∧ i16Sat n ≤ 32767 :=
  ⟨le_max_left _ _, max_le (by norm_num) (min_le_left _ _)⟩

/-! ### Claim theorems -/

/-- C1 (corrected): only the fill path packs the 16-bit vertex-type tag
into the high bits of `feature_id`; the stroke path emits the
constructor's `feature_id` unchanged, with no tag shifted in. -/
theorem c1_feature_id_packing (c : LayerVertexCtor) (f : FillVertexIn) (s : StrokeVertexIn) :
    (fillNewVertex c f).feature_id = (c.vertex_type.toTag <<< 16) ||| c.feature_id ∧
    (strokeNewVertex c s).feature_id = c.feature_id :=
  ⟨rfl, rfl⟩

/-- C1 counterexample: a stroke vertex built for a line feature with
index 5 carries `feature_id = 5`, not `(1 <<< 16) ||| 5 = 65541` as the
claim requires for every emitted vertex. -/
theorem c1_counterexample :
    (strokeNewVertex ⟨⟨0, 0, 0⟩, 5, 4096, VertexType.line⟩
        ⟨(0, 0), (0, 0)⟩).feature_id ≠ (VertexType.line.toTag <<< 16) ||| 5 := by
  show (5 : ℕ) ≠ (VertexType.line.toTag <<< 16) ||| 5
  decide

/-- C3 (code bug): `Object::new` discards the `tags` argument and stores
`HashMap::new()`, so an object constructed with a nonempty tag mapping
has empty tags. -/
theorem c3_tags_discarded :
    (Object.new ⟨0⟩ [] [("name", "Berlin")] ObjectType.point).tags = [] ∧
    ([("name", "Berlin")] : List (String × String)) ≠ [] :=
  ⟨rfl, List.cons_ne_nil _ _⟩

/-- C5 counterexample: a tile whose second fill vertex has a NaN x
coordinate makes the whole traversal abort with the assertion panic — the
offending vertex is not skipped and the rest of the tile does not
render. -/
theorem c5_counterexample :
    tessellateFill ⟨⟨0, 0, 0⟩, 0, 1, VertexType.polygon⟩
        [⟨false, false, ⟨(0, 0), (0, 0)⟩⟩, ⟨true, false, ⟨(0, 0), (0, 0)⟩⟩] =
      Except.error () := by
  simp [tessellateFill, fillNewVertexChecked]

/-- C5 (amended): a NaN position coordinate reaching `new_vertex` fails
the leading assertion, and the panic aborts tessellation of the whole
vertex sequence instead of skipping the offending object. -/
theorem c5_nan_aborts_tessellation (c : LayerVertexCtor) (vs : List CheckedFillInput)
    (v : CheckedFillInput) (hv : v ∈ vs)
    (hnan : v.posXNaN = true ∨ v.posYNaN = true) :
    ∃ e, tessellateFill c vs = Except.error e := by
  induction vs with
  | nil => cases hv
  | cons a rest ih =>
    rcases List.mem_cons.mp hv with rfl | hv'
    · refine ⟨(), ?_⟩
      have herr : fillNewVertexChecked c v = Except.error () := by
        rcases hnan with h | h
        · simp [fillNewVertexChecked, h]
        · cases hx : v.posXNaN
          · simp [fillNewVertexChecked, hx, h]
          · simp [fillNewVertexChecked, hx]
      simp [tessellateFill, herr]
    · obtain ⟨e, he⟩ := ih hv'
      rcases hfc : fillNewVertexChecked c a with e' | w
      · exact ⟨e', by simp [tessellateFill, hfc]⟩
      · exact ⟨e, by simp [tessellateFill, hfc, he]⟩

/-- C5 witness: a singleton vertex list whose only entry has a NaN x
coordinate aborts. -/
theorem c5_witness :
    ∃ e, tessellateFill ⟨⟨0, 0, 0⟩, 0, 1, VertexType.polygon⟩
        [⟨true, false, ⟨(0, 0), (0, 0)⟩⟩] = Except.error e :=
  c5_nan_aborts_tessellation _ _ ⟨true, false, ⟨(0, 0), (0, 0)⟩⟩
    (List.mem_singleton.mpr rfl) (Or.inl rfl)

/-- C7: the bytes `copy_uniform_buffers` writes for the canvas-size
uniform plus the truncated style buffer always fit in the
`4*4 + 12*4*max_features`-byte uniform region, for any positive
`max_features` (the default configuration uses 1000). -/
theorem c7_style_buffer_fits (features : List StyleRecord) (max_features : ℕ)
    (h : 1 ≤ max_features) :
    copy_uniform_buffers_total
        (create_uniform_buffers_lens
          (assemble_style_buffer features max_features).length) ≤
      uniform_buffer_size max_features := by
  simp only [copy_uniform_buffers_total, create_uniform_buffers_lens, canvas_size_len,
    layer_data_len, uniform_buffer_size, assemble_style_buffer, List.length_take,
    List.sum_cons, List.sum_nil]
  omega

/-- C7 witness: 2000 visible features against the default
`max_features = 1000` still fit. -/
theorem c7_witness :
    copy_uniform_buffers_total
        (create_uniform_buffers_lens
          (assemble_style_buffer (List.replicate 2000 ⟨fun _ => 0⟩) 1000).length) ≤
      uniform_buffer_size 1000 :=
  c7_style_buffer_fits _ 1000 (by norm_num)

/-- C8: when the feature list is empty or no tiles are visible,
`Painter::paint` begins no render pass and submits no draw commands —
its effect trace is empty. -/
theorem c8_no_features_no_render (features : List StyleRecord) (numTiles : ℕ)
    (frameOk : Bool) (h : features = [] ∨ numTiles = 0) :
    paintEffects features numTiles frameOk = [] := by
  rcases h with h | h <;> subst h <;> simp [paintEffects]

/-- C8 witness: an empty feature list with five visible tiles paints
nothing. -/
theorem c8_witness : paintEffects [] 5 true = [] :=
  c8_no_features_no_render [] 5 true (Or.inl rfl)

/-- C2: a stroke normal longer than 8.0 is re-normalized to a unit vector
and scaled to length exactly 8.0 — its direction unchanged (a positive
scalar multiple of the input) — while a shorter normal passes through
unchanged; the emitted integer normal is the clamped normal multiplied by
the tile extent and then rounded. -/
theorem c2_stroke_normal_clamp (c : LayerVertexCtor) (v : StrokeVertexIn) :
    (length v.normal > 8 →
        clampNormal 8 v.normal = smul 8 (normalize v.normal) ∧
        length (clampNormal 8 v.normal) = 8 ∧
        ∃ t : ℝ, 0 < t ∧ clampNormal 8 v.normal = smul t v.normal) ∧
    (length v.normal ≤ 8 → clampNormal 8 v.normal = v.normal) ∧
    (strokeNewVertex c v).normal =
      (i16SatRound (c.extent * (clampNormal 8 v.normal).1),
       i16SatRound (c.extent * (clampNormal 8 v.normal).2)) := by
  refine ⟨?_, ?_, rfl⟩
  · intro h
    have hpos : (0 : ℝ) < length v.normal := lt_trans (by norm_num) h
    have hclamp : clampNormal 8 v.normal = smul 8 (normalize v.normal) := by
      unfold clampNormal
      rw [if_pos h]
    refine ⟨hclamp, ?_, ?_⟩
    · rw [hclamp, length_smul _ _ (by norm_num), length_normalize _ hpos.ne']
      norm_num
    · refine ⟨8 / length v.normal, by positivity, ?_⟩
      rw [hclamp, normalize_eq_smul]
      simp only [smul, Prod.mk.injEq]
      exact ⟨by ring, by ring⟩
  · intro h
    unfold clampNormal
    rw [if_neg (not_lt.mpr h)]

/-- C2 witness: the normal (6, 8) has length 10 > 8 and is clamped to
length exactly 8. -/
theorem c2_witness :
    length ((6 : ℝ), 8) > 8 ∧ length (clampNormal 8 ((6 : ℝ), 8)) = 8 := by
  have h10 : length ((6 : ℝ), 8) = 10 := length_pair 6 8 10 (by norm_num) (by norm_num)
  have h8 : length ((6 : ℝ), 8) > 8 := by rw [h10]; norm_num
  exact ⟨h8,
    ((c2_stroke_normal_clamp ⟨⟨0, 0, 0⟩, 0, 1, VertexType.line⟩
        ⟨(0, 0), (6, 8)⟩).1 h8).2.1⟩

/-- C4 counterexample: a fill vertex with input normal (1, 0) at extent 1
is emitted with normal (1, 0), not zero. -/
theorem c4_counterexample :
    (fillNewVertex ⟨⟨0, 0, 0⟩, 0, 1, VertexType.polygon⟩
        ⟨(0, 0), (1, 0)⟩).normal ≠ (0, 0) := by
  have hlen : length ((1 : ℝ), 0) = 1 := length_pair 1 0 1 (by norm_num) (by norm_num)
  have hcl : clampNormal 3 ((1 : ℝ), 0) = (1, 0) := by
    unfold clampNormal
    rw [if_neg (by rw [hlen]; norm_num)]
  show (i16SatRound ((1 : ℝ) * (clampNormal 3 ((1 : ℝ), 0)).1),
        i16SatRound ((1 : ℝ) * (clampNormal 3 ((1 : ℝ), 0)).2)) ≠ ((0 : ℤ), (0 : ℤ))
  rw [hcl]
  norm_num [i16SatRound, rustRound, i16Sat, round_one]

/-- C4 (amended): the fill path emits the input normal clamped to length
3, scaled by the extent and rounded — it is zero when the input normal is
zero, but not for every fill vertex. -/
theorem c4_fill_normal (c : LayerVertexCtor) (v : FillVertexIn) :
    (fillNewVertex c v).normal =
      (i16SatRound (c.extent * (clampNormal 3 v.normal).1),
       i16SatRound (c.extent * (clampNormal 3 v.normal).2)) ∧
    (v.normal = (0, 0) → (fillNewVertex c v).normal = (0, 0)) := by
  refine ⟨rfl, ?_⟩
  intro h
  have hlen : length ((0 : ℝ), 0) = 0 := length_pair 0 0 0 le_rfl (by norm_num)
  have hcl : clampNormal 3 v.normal = (0, 0) := by
    rw [h]
    unfold clampNormal
    rw [if_neg (by rw [hlen]; norm_num)]
  show (i16SatRound (c.extent * (clampNormal 3 v.normal).1),
        i16SatRound (c.extent * (clampNormal 3 v.normal).2)) = ((0 : ℤ), (0 : ℤ))
  rw [hcl]
  norm_num [i16SatRound, rustRound, i16Sat]

/-- C4 witness: a fill vertex with the zero input normal is emitted with
the zero normal. -/
theorem c4_witness :
    (fillNewVertex ⟨⟨0, 0, 0⟩, 0, 1, VertexType.polygon⟩
        ⟨(0, 0), (0, 0)⟩).normal = (0, 0) :=
  (c4_fill_normal _ _).2 rfl

/-- C10: quantized normal components always lie in the `i16` range — the
cast saturates rather than wraps — and at extent 4096 a stroke normal
component at the clamp magnitude 8.0 produces 32767 (respectively
-32768 at -8.0). -/
theorem c10_normal_quantization_saturates :
    (∀ (c : LayerVertexCtor) (v : StrokeVertexIn),
        -32768 ≤ (strokeNewVertex c v).normal.1 ∧
        (strokeNewVertex c v).normal.1 ≤ 32767 ∧
        -32768 ≤ (strokeNewVertex c v).normal.2 ∧
        (strokeNewVertex c v).normal.2 ≤ 32767) ∧
    (∀ (c : LayerVertexCtor) (v : FillVertexIn),
        -32768 ≤ (fillNewVertex c v).normal.1 ∧
        (fillNewVertex c v).normal.1 ≤ 32767 ∧
        -32768 ≤ (fillNewVertex c v).normal.2 ∧
        (fillNewVertex c v).normal.2 ≤ 32767) ∧
    (strokeNewVertex ⟨⟨0, 0, 0⟩, 0, 4096, VertexType.line⟩
        ⟨(0, 0), (8, 0)⟩).normal.1 = 32767 ∧
    (strokeNewVertex ⟨⟨0, 0, 0⟩, 0, 4096, VertexType.line⟩
        ⟨(0, 0), (-8, 0)⟩).normal.1 = -32768 := by
  have hb : ∀ x : ℝ, -32768 ≤ i16SatRound x ∧ i16SatRound x ≤ 32767 := fun x =>
    i16Sat_bounds (rustRound x)
  refine ⟨fun c v => ⟨(hb _).1, (hb _).2, (hb _).1, (hb _).2⟩,
    fun c v => ⟨(hb _).1, (hb _).2, (hb _).1, (hb _).2⟩, ?_, ?_⟩
  · have hlen : length ((8 : ℝ), 0) = 8 := length_pair 8 0 8 (by norm_num) (by norm_num)
    have hcl : clampNormal 8 ((8 : ℝ), 0) = (8, 0) := by
      unfold clampNormal
      rw [if_neg (by rw [hlen]; norm_num)]
    show i16SatRound ((4096 : ℝ) * (clampNormal 8 ((8 : ℝ), 0)).1) = 32767
    rw [hcl]
    show i16SatRound ((4096 : ℝ) * 8) = 32767
    rw [show (4096 : ℝ) * 8 = ((32768 : ℤ) : ℝ) by norm_num]
    unfold i16SatRound
    rw [rustRound_intCast]
    decide
  · have hlen : length ((-8 : ℝ), 0) = 8 := length_pair (-8) 0 8 (by norm_num) (by norm_num)
    have hcl : clampNormal 8 ((-8 : ℝ), 0) = (-8, 0) := by
      unfold clampNormal
      rw [if_neg (by rw [hlen]; norm_num)]
    show i16SatRound ((4096 : ℝ) * (clampNormal 8 ((-8 : ℝ), 0)).1) = -32768
    rw [hcl]
    show i16SatRound ((4096 : ℝ) * (-8)) = -32768
    rw [show (4096 : ℝ) * (-8) = ((-32768 : ℤ) : ℝ) by norm_num]
    unfold i16SatRound
    rw [rustRound_intCast]
    decide

theorem sorted_tileColliderHits_map (objs : List PerTileObject) (p : ℝ × ℝ) :
    List.Sorted (fun a b : PerTileObject => b.zOrder ≤ a.zOrder)
      ((tileColliderHits objs p).map fun i => objs.getD i default) := by
  have hs := List.sorted_insertionSort (zDescIdx objs)
    ((List.range objs.length).filter fun i => (objs.getD i default).hit p)
  exact List.pairwise_map.mpr hs

/-- C6: the objects returned by `Collider::get_hovered_objects` come back
in front-to-back draw order — pairwise descending z-order — so of two
overlapping hits the topmost (highest z-order) is returned first. -/
theorem c6_hovered_objects_topmost_first (cache : TileId → Option Tile)
    (tilePoint : TileId → ℕ → ℝ × ℝ) (tileField : List TileId) :
    List.Sorted (fun a b : PerTileObject => b.zOrder ≤ a.zOrder)
      (getHoveredObjects cache tilePoint tileField) := by
  induction tileField with
  | nil =>
    unfold getHoveredObjects
    exact List.sorted_nil
  | cons tid rest ih =>
    unfold getHoveredObjects
    cases hc : cache tid with
    | none => exact ih
    | some tile =>
      dsimp only
      by_cases hb : inExtent (tilePoint tid tile.extent) tile.extent
      · rw [if_pos hb]
        exact sorted_tileColliderHits_map _ _
      · rw [if_neg hb]
        exact ih

/-- C9: the collider reports objects from at most one tile — the first
tile of the padded boundary enumeration that is cached and whose
transformed query point lies within `[0, extent]²` — returning exactly
that tile's hits (possibly none) and never consulting later tiles. -/
theorem c9_single_tile_hits (cache : TileId → Option Tile)
    (tilePoint : TileId → ℕ → ℝ × ℝ) (tileField : List TileId) :
    getHoveredObjects cache tilePoint tileField =
      hitsOfEligible tilePoint (firstEligible cache tilePoint tileField) := by
  induction tileField with
  | nil => rfl
  | cons tid rest ih =>
    unfold getHoveredObjects firstEligible
    cases hc : cache tid with
    | none => exact ih
    | some tile =>
      dsimp only
      by_cases hb : inExtent (tilePoint tid tile.extent) tile.extent
      · rw [if_pos hb, if_pos hb]
        rfl
      · rw [if_neg hb, if_neg hb]
        exact ih

end Sailor
